import Mathlib

/-!
Verification of the serial-port library in `src/src/serial_windows.cpp`
(namespace `WindowsSystem`).

Embedding choices:
* The four file-scope globals (`hSerialPort`, `dcbSerialParams`, `timeouts`,
  `data`) become an explicit `Globals` record threaded through each operation.
  File-scope variables in C++ are zero-initialized, so the initial handle value
  is the null pointer `0`, which is distinct from `INVALID_HANDLE_VALUE`
  (the all-ones pointer, `-1`).
* The OS driver calls (`CreateFile`, `GetCommState`, `SetCommState`,
  `SetCommTimeouts`, `ReadFile`, `WriteFile`, `CloseHandle`) are an explicit
  environment record per operation; each field gives the outcome of the
  corresponding driver call.
* Machine-integer conversions are explicit: a store of an `int` into a
  `DWORD` field takes the value modulo `2 ^ 32`, into a `BYTE` field modulo
  `256` (Lean's `%` on `Int` is euclidean, matching conversion to an unsigned
  type).  The `size_t` comparison in `getAvailablePorts` converts the signed
  `bufferSize` modulo `2 ^ 64`.
* Caller buffers are `List Nat` of byte values; `memcpy(buffer, src, n)`
  overwrites the first `n` cells and leaves the rest unchanged.
-/

namespace Serial

/-- Modelled from the spec: the `StatusCodes` enumeration lives in
`serial_windows.h`, which is not among the sources; the spec describes it as
"a small, dense, signed enumeration" listing `SUCCESS` (0) first with all
errors negative. -/
inductive StatusCodes where
  | SUCCESS
  | INVALID_HANDLE_ERROR
  | GET_PROPERTY_ERROR
  | SET_PROPERTY_ERROR
  | SET_TIMEOUT_ERROR
  | CLOSE_HANDLE_ERROR
  | READ_ERROR
  | WRITE_ERROR
  | BUFFER_ERROR
deriving DecidableEq

/-- Modelled from the spec: the `status` mapping (declared in the missing
header) sends `SUCCESS` to `0` and the error codes, in declaration order, to
the dense negative values `-1 .. -8`. -/
def status : StatusCodes → Int
  | .SUCCESS => 0
  | .INVALID_HANDLE_ERROR => -1
  | .GET_PROPERTY_ERROR => -2
  | .SET_PROPERTY_ERROR => -3
  | .SET_TIMEOUT_ERROR => -4
  | .CLOSE_HANDLE_ERROR => -5
  | .READ_ERROR => -6
  | .WRITE_ERROR => -7
  | .BUFFER_ERROR => -8

/-- The Windows constant `INVALID_HANDLE_VALUE` is the all-ones pointer. -/
def INVALID_HANDLE_VALUE : Int := -1

/-- The driver line-state record.  `BaudRate` is a `DWORD`, `ByteSize`,
`Parity` and `StopBits` are `BYTE`s; `other` stands for every remaining
field of the Windows `DCB` structure, carried opaquely.  (The `DCBlength`
size tag set at the top of `open` is overwritten when `GetCommState` fills
the record and is not modelled separately.) -/
structure DCB where
  BaudRate : Int
  ByteSize : Int
  Parity : Int
  StopBits : Int
  other : Int
deriving DecidableEq

/-- The Windows `COMMTIMEOUTS` record; all five fields are `DWORD`s. -/
structure COMMTIMEOUTS where
  ReadIntervalTimeout : Int
  ReadTotalTimeoutConstant : Int
  ReadTotalTimeoutMultiplier : Int
  WriteTotalTimeoutConstant : Int
  WriteTotalTimeoutMultiplier : Int
deriving DecidableEq

/-- The four file-scope globals of `serial_windows.cpp`. -/
structure Globals where
  hSerialPort : Int
  dcbSerialParams : DCB
  timeouts : COMMTIMEOUTS
  data : List Nat
deriving DecidableEq

/-- File-scope C++ variables are zero-initialized: the handle starts as the
null pointer `0` (not `INVALID_HANDLE_VALUE`), the records as all-zero, the
accumulator string as empty. -/
def initGlobals : Globals :=
  { hSerialPort := 0
    dcbSerialParams := ⟨0, 0, 0, 0, 0⟩
    timeouts := ⟨0, 0, 0, 0, 0⟩
    data := [] }

/-- Effect of `memcpy(buffer, src, src.length)`: the first `src.length` cells
of the caller buffer are overwritten, the rest are unchanged. -/
def writeBytes (buf src : List Nat) : List Nat :=
  src ++ buf.drop src.length

/-- The four line-configuration stores in `open`:
`BaudRate = baudrate` (int to `DWORD`), `ByteSize = dataBits` (int to `BYTE`),
`Parity = (BYTE)parity`, `StopBits = (BYTE)stopBits`. -/
def dcbWithLine (dcb : DCB) (baudrate dataBits parity stopBits : Int) : DCB :=
  { dcb with
      BaudRate := baudrate % 2 ^ 32
      ByteSize := dataBits % 256
      Parity := parity % 256
      StopBits := stopBits % 256 }

/-- The timeout profile installed by `open`: lines 65-69 of the source. -/
def defaultTimeouts : COMMTIMEOUTS := ⟨50, 50, 10, 50, 10⟩

/-- The three read-timeout stores shared verbatim by `read` (lines 120-122)
and `readUntil` (lines 162-164): interval and total constant from `timeout`,
total multiplier from `multiplier`, each converted int to `DWORD`. -/
def readTimeoutsWith (t : COMMTIMEOUTS) (timeout multiplier : Int) : COMMTIMEOUTS :=
  { t with
      ReadIntervalTimeout := timeout % 2 ^ 32
      ReadTotalTimeoutConstant := timeout % 2 ^ 32
      ReadTotalTimeoutMultiplier := multiplier % 2 ^ 32 }

/-- The two write-timeout stores in `write` (lines 212-213). -/
def writeTimeoutsWith (t : COMMTIMEOUTS) (timeout multiplier : Int) : COMMTIMEOUTS :=
  { t with
      WriteTotalTimeoutConstant := timeout % 2 ^ 32
      WriteTotalTimeoutMultiplier := multiplier % 2 ^ 32 }

/-- Driver outcomes consulted by `open`.  `createFile` is the handle returned
by `CreateFile` (`INVALID_HANDLE_VALUE` on failure); `getCommState` is the
line state the driver reports (`none` if `GetCommState` fails); the two
setters report success of the corresponding commit. -/
structure OpenEnv where
  createFile : Int
  getCommState : Option DCB
  setCommState : DCB → Bool
  setCommTimeouts : COMMTIMEOUTS → Bool

/-- Result of `open`: the return value, the globals after the call, and the
list of handles passed to `CloseHandle` during the call. -/
structure OpenResult where
  ret : Int
  g : Globals
  closeCalls : List Int
deriving DecidableEq

/-- Embedding of `open` (lines 21-78).  The handle returned by `CreateFile`
is stored into the global before the validity check; every subsequent failure
path calls `CloseHandle` on it and returns the code of the first failing
step. -/
def «open» (g0 : Globals) (env : OpenEnv)
    (baudrate dataBits parity stopBits : Int) : OpenResult :=
  let g1 := { g0 with hSerialPort := env.createFile }
  if g1.hSerialPort = INVALID_HANDLE_VALUE then
    ⟨status StatusCodes.INVALID_HANDLE_ERROR, g1, []⟩
  else
    match env.getCommState with
    | none => ⟨status StatusCodes.GET_PROPERTY_ERROR, g1, [g1.hSerialPort]⟩
    | some driverState =>
      let g2 := { g1 with
        dcbSerialParams := dcbWithLine driverState baudrate dataBits parity stopBits }
      if env.setCommState g2.dcbSerialParams = false then
        ⟨status StatusCodes.SET_PROPERTY_ERROR, g2, [g2.hSerialPort]⟩
      else
        let g3 := { g2 with timeouts := defaultTimeouts }
        if env.setCommTimeouts g3.timeouts = false then
          ⟨status StatusCodes.SET_TIMEOUT_ERROR, g3, [g3.hSerialPort]⟩
        else
          ⟨status StatusCodes.SUCCESS, g3, []⟩

/-- Driver outcome consulted by `close`: success of `CloseHandle`. -/
structure CloseEnv where
  closeHandle : Int → Bool

/-- Result of `close`: return value, globals after the call, and the handles
passed to `CloseHandle`. -/
structure CloseResult where
  ret : Int
  g : Globals
  closeCalls : List Int
deriving DecidableEq

/-- Embedding of `close` (lines 85-97).  Note that the source never writes to
`hSerialPort`: the globals come back unchanged in every branch. -/
def close (g0 : Globals) (env : CloseEnv) : CloseResult :=
  if g0.hSerialPort = INVALID_HANDLE_VALUE then
    ⟨status StatusCodes.INVALID_HANDLE_ERROR, g0, []⟩
  else if env.closeHandle g0.hSerialPort = false then
    ⟨status StatusCodes.CLOSE_HANDLE_ERROR, g0, [g0.hSerialPort]⟩
  else
    ⟨status StatusCodes.SUCCESS, g0, [g0.hSerialPort]⟩

/-- Driver outcomes consulted by `read`: success of `SetCommTimeouts`, and
the outcome of the single `ReadFile` call for a request of the given size
(`none` = failure, `some bytes` = the bytes placed in the caller buffer). -/
structure ReadEnv where
  setCommTimeouts : COMMTIMEOUTS → Bool
  readFile : Int → Option (List Nat)

/-- Result of `read`/`readUntil`: return value, globals after the call, and
the caller buffer after the call. -/
structure IOResult where
  ret : Int
  g : Globals
  buffer : List Nat
deriving DecidableEq

/-- Embedding of `read` (lines 109-137). -/
def read (g0 : Globals) (env : ReadEnv) (buffer : List Nat)
    (bufferSize timeout multiplier : Int) : IOResult :=
  if g0.hSerialPort = INVALID_HANDLE_VALUE then
    ⟨status StatusCodes.INVALID_HANDLE_ERROR, g0, buffer⟩
  else
    let g1 := { g0 with timeouts := readTimeoutsWith g0.timeouts timeout multiplier }
    if env.setCommTimeouts g1.timeouts = false then
      ⟨status StatusCodes.SET_TIMEOUT_ERROR, g1, buffer⟩
    else
      match env.readFile bufferSize with
      | none => ⟨status StatusCodes.READ_ERROR, g1, buffer⟩
      | some bytes => ⟨(bytes.length : Int), g1, writeBytes buffer bytes⟩

/-- Outcome of one single-byte `ReadFile` call inside the `readUntil` loop:
failure, zero bytes read, or one byte read. -/
inductive ReadOne where
  | fail
  | empty
  | byte (b : Nat)
deriving DecidableEq

/-- Driver outcomes consulted by `readUntil`: success of `SetCommTimeouts`
and, for each loop iteration index, the outcome of that single-byte read. -/
structure ReadUntilEnv where
  setCommTimeouts : COMMTIMEOUTS → Bool
  readOne : Nat → ReadOne

/-- The test `data.find(pat) != std::string::npos`: whether `pat` occurs as a
contiguous substring of `data` at some position (the empty pattern is found
at position 0 of every string). -/
def hasSubstr (data pat : List Nat) : Bool :=
  (List.range (data.length + 1)).any fun k => decide ((data.drop k).take pat.length = pat)

/-- The loop of `readUntil` (lines 173-187), with `fuel` the number of
remaining iterations (`bufferSize - i`) and `i` the iteration counter.
The loop condition re-checks `data.find(searchString) == npos` on the whole
accumulator before every read.  An error result carries the accumulator at
the moment the driver read failed, since the global `data` keeps it. -/
def readUntilLoop (readOne : Nat → ReadOne) (search : List Nat)
    (data : List Nat) (i : Nat) : Nat → Except (List Nat) (List Nat)
  | 0 => Except.ok data
  | fuel + 1 =>
    if hasSubstr data search then Except.ok data
    else
      match readOne i with
      | ReadOne.fail => Except.error data
      | ReadOne.empty => Except.ok data
      | ReadOne.byte b => readUntilLoop readOne search (data ++ [b]) (i + 1) fuel

/-- Embedding of `readUntil` (lines 150-192).  The loop runs at most
`bufferSize` iterations (none when `bufferSize ≤ 0`, hence `Int.toNat`); on
normal exit `memcpy(buffer, data.c_str(), data.length() + 1)` copies the
accumulator plus its terminating zero byte. -/
def readUntil (g0 : Globals) (env : ReadUntilEnv) (buffer : List Nat)
    (bufferSize timeout multiplier : Int) (search : List Nat) : IOResult :=
  if g0.hSerialPort = INVALID_HANDLE_VALUE then
    ⟨status StatusCodes.INVALID_HANDLE_ERROR, g0, buffer⟩
  else
    let g1 := { g0 with timeouts := readTimeoutsWith g0.timeouts timeout multiplier }
    if env.setCommTimeouts g1.timeouts = false then
      ⟨status StatusCodes.SET_TIMEOUT_ERROR, g1, buffer⟩
    else
      match readUntilLoop env.readOne search [] 0 bufferSize.toNat with
      | Except.error acc =>
        ⟨status StatusCodes.READ_ERROR, { g1 with data := acc }, buffer⟩
      | Except.ok acc =>
        ⟨(acc.length : Int), { g1 with data := acc }, writeBytes buffer (acc ++ [0])⟩

/-- Driver outcomes consulted by `write`: success of `SetCommTimeouts` and
the outcome of the single `WriteFile` call on the first `bufferSize` bytes of
the caller buffer (`none` = failure, `some n` = bytes written). -/
structure WriteEnv where
  setCommTimeouts : COMMTIMEOUTS → Bool
  writeFile : List Nat → Option Nat

/-- Embedding of `write` (lines 204-226).  Faithful to the source, there is
no handle-validity check. -/
def write (g0 : Globals) (env : WriteEnv) (buffer : List Nat)
    (bufferSize timeout multiplier : Int) : Int × Globals :=
  let g1 := { g0 with timeouts := writeTimeoutsWith g0.timeouts timeout multiplier }
  if env.setCommTimeouts g1.timeouts = false then
    (status StatusCodes.SET_TIMEOUT_ERROR, g1)
  else
    match env.writeFile (buffer.take bufferSize.toNat) with
    | none => (status StatusCodes.WRITE_ERROR, g1)
    | some n => ((n : Int), g1)

/-- Structural helper for decimal rendering: `fuel` bounds the number of
digits (any `fuel > log10 n` gives the exact digits). -/
def toDecimalDigitsAux : Nat → Nat → List Nat
  | 0, _ => []
  | fuel + 1, n =>
    if n < 10 then [48 + n]
    else toDecimalDigitsAux fuel (n / 10) ++ [48 + n % 10]

/-- ASCII decimal digits of `n`, exactly as `std::to_string` renders a
positive int (`n + 1` units of fuel always suffice since the argument shrinks
by a factor of ten each step). -/
def toDecimalDigits (n : Nat) : List Nat :=
  toDecimalDigitsAux (n + 1) n

/-- Bytes of the candidate port name `"COM" + std::to_string(i)`. -/
def portName (i : Nat) : List Nat := [67, 79, 77] ++ toDecimalDigits i

/-- The probe loop of `getAvailablePorts` (lines 245-263) after `n`
iterations: the accumulated `result` string (each successful name followed by
the full separator) and the `portsCounter`.  `probe i` tells whether
`CreateFileA` succeeds on `COMi`. -/
def enumLoop (probe : Nat → Bool) (sep : List Nat) : Nat → List Nat × Nat
  | 0 => ([], 0)
  | n + 1 =>
    if probe (n + 1) then
      ((enumLoop probe sep n).1 ++ portName (n + 1) ++ sep,
       (enumLoop probe sep n).2 + 1)
    else enumLoop probe sep n

/-- Embedding of `getAvailablePorts` (lines 236-278).  After the probe loop,
`result.erase(result.length() - 1)` removes exactly one trailing character
when the string is nonempty; the capacity test compares the `size_t` length
against `bufferSize` converted to `size_t` (modulo `2 ^ 64`). -/
def getAvailablePorts (probe : Nat → Bool) (buffer : List Nat)
    (bufferSize : Int) (sep : List Nat) : Int × List Nat :=
  let res0 := (enumLoop probe sep 256).1
  let res := if res0.length > 0 then res0.dropLast else res0
  if (res.length : Int) + 1 > bufferSize % 2 ^ 64 then
    (status StatusCodes.BUFFER_ERROR, buffer)
  else
    (((enumLoop probe sep 256).2 : Int), writeBytes buffer (res ++ [0]))

/-- Spec-side definition (from the spec's words, for comparison with the
source): the port numbers in `1..n` whose probe succeeds, in order. -/
def portsUpTo (probe : Nat → Bool) : Nat → List Nat
  | 0 => []
  | n + 1 => portsUpTo probe n ++ (if probe (n + 1) then [n + 1] else [])

/-- Helper describing the raw probe-loop string: every name followed by the
full separator. -/
def joinAllSep (sep : List Nat) : List (List Nat) → List Nat
  | [] => []
  | nm :: rest => nm ++ sep ++ joinAllSep sep rest

/-- Spec-side definition (from the spec's words): names joined with the
separator between adjacent names and no trailing separator. -/
def joinWithSep (names : List (List Nat)) (sep : List Nat) : List Nat :=
  match names with
  | [] => []
  | [nm] => nm
  | nm :: rest => nm ++ sep ++ joinWithSep rest sep

/-- Spec-side definition (from the spec's words): the number of
separator-delimited tokens in a byte string, for a one-byte separator; the
empty string holds no token, otherwise one more token than separator
occurrences. -/
def countTokens (s : List Nat) (c : Nat) : Nat :=
  if s = [] then 0 else s.count c + 1

/-- Witness fixture: a session whose stored handle is a live-looking value. -/
def wOpened : Globals := { initGlobals with hSerialPort := 7 }

/-- Witness fixture: a driver stream delivering bytes `A`, `B`, `;` and then
reporting end of data. -/
def wStream : Nat → ReadOne := fun k =>
  if k = 0 then ReadOne.byte 65
  else if k = 1 then ReadOne.byte 66
  else if k = 2 then ReadOne.byte 59
  else ReadOne.empty

/-- Witness fixture: a `readUntil` environment whose timeout commit succeeds
and whose driver delivers `wStream`. -/
def wEnvU : ReadUntilEnv := ⟨fun _ => true, wStream⟩

/-- Witness fixture: a `readUntil` environment whose driver fails on the
very first single-byte read. -/
def wEnvUFail : ReadUntilEnv := ⟨fun _ => true, fun _ => ReadOne.fail⟩

/-- Witness fixture: a `read` environment whose driver delivers two bytes. -/
def wEnvR : ReadEnv := ⟨fun _ => true, fun _ => some [65, 66]⟩

/-- Witness fixture: a `write` environment whose driver accepts two bytes. -/
def wEnvW : WriteEnv := ⟨fun _ => true, fun _ => some 2⟩

/-- Witness fixture: an `open` environment failing at `GetCommState`. -/
def wOpenEnvFail : OpenEnv := ⟨7, none, fun _ => true, fun _ => true⟩

/-- Witness fixture: an `open` environment where every driver call succeeds
and the fetched line state is the all-nines record. -/
def wOpenEnvOk : OpenEnv := ⟨7, some ⟨9, 9, 9, 9, 9⟩, fun _ => true, fun _ => true⟩

/-- Witness fixture: exactly the probes of `COM1` and `COM2` succeed. -/
def probeTwo : Nat → Bool := fun i => Nat.ble i 2

/-- Witness fixture: no probe succeeds. -/
def probeNone : Nat → Bool := fun _ => false

/-- C1 (amended part, proof): whenever the stored handle equals
`INVALID_HANDLE_VALUE`, both `read` and `readUntil` return
`INVALID_HANDLE_ERROR` and transfer no data: the globals and the caller
buffer come back unchanged. -/
theorem read_readUntil_invalid_handle (g : Globals) (envR : ReadEnv)
    (envU : ReadUntilEnv) (buffer : List Nat)
    (bufferSize timeout multiplier : Int) (search : List Nat)
    (h : g.hSerialPort = INVALID_HANDLE_VALUE) :
    read g envR buffer bufferSize timeout multiplier =
      ⟨status StatusCodes.INVALID_HANDLE_ERROR, g, buffer⟩ ∧
    readUntil g envU buffer bufferSize timeout multiplier search =
      ⟨status StatusCodes.INVALID_HANDLE_ERROR, g, buffer⟩ := by
  constructor
  · simp [read, h]
  · simp [readUntil, h]

/-- C1 (witness): the amended statement at a session whose handle is
`INVALID_HANDLE_VALUE`. -/
theorem read_readUntil_invalid_handle_witness :
    ({ initGlobals with hSerialPort := INVALID_HANDLE_VALUE } : Globals).hSerialPort =
      INVALID_HANDLE_VALUE ∧
    (read { initGlobals with hSerialPort := INVALID_HANDLE_VALUE } wEnvR [9] 1 1 1 =
      ⟨status StatusCodes.INVALID_HANDLE_ERROR,
       { initGlobals with hSerialPort := INVALID_HANDLE_VALUE }, [9]⟩ ∧
     readUntil { initGlobals with hSerialPort := INVALID_HANDLE_VALUE } wEnvU [9] 1 1 1 [59] =
      ⟨status StatusCodes.INVALID_HANDLE_ERROR,
       { initGlobals with hSerialPort := INVALID_HANDLE_VALUE }, [9]⟩) :=
  ⟨rfl, read_readUntil_invalid_handle _ wEnvR wEnvU [9] 1 1 1 [59] rfl⟩

/-- C1 (counterexample): the claim as stated is false on the code.  `write`
on a never-opened session does not return `INVALID_HANDLE_ERROR` (the source
has no handle check in `write`); after a successful `close()` a subsequent
`read` does not return `INVALID_HANDLE_ERROR` (the handle variable is never
reset); and on the zero-initialized, never-opened globals `read` does not
return `INVALID_HANDLE_ERROR` either (the null handle differs from
`INVALID_HANDLE_VALUE`). -/
theorem c1_counterexample :
    (write initGlobals wEnvW [1, 2, 3] 3 5 5).1 ≠
      status StatusCodes.INVALID_HANDLE_ERROR ∧
    ((close wOpened ⟨fun _ => true⟩).ret = status StatusCodes.SUCCESS ∧
     (read (close wOpened ⟨fun _ => true⟩).g wEnvR [0, 0, 0, 0] 4 1 1).ret ≠
       status StatusCodes.INVALID_HANDLE_ERROR) ∧
    (read initGlobals wEnvR [0, 0, 0, 0] 4 1 1).ret ≠
      status StatusCodes.INVALID_HANDLE_ERROR := by
  decide

/-- C9 (code bug): `close` on a session holding handle `7`, with a driver
whose `CloseHandle` succeeds, returns `SUCCESS` but leaves `hSerialPort`
holding the stale value `7`; the session is not observably closed, and a
second `close` on the resulting state again passes the validity guard
instead of returning `INVALID_HANDLE_ERROR`. -/
theorem close_stale_handle :
    (close wOpened ⟨fun _ => true⟩).ret = status StatusCodes.SUCCESS ∧
    (close wOpened ⟨fun _ => true⟩).g.hSerialPort = 7 ∧
    (close wOpened ⟨fun _ => true⟩).g.hSerialPort ≠ INVALID_HANDLE_VALUE ∧
    (close (close wOpened ⟨fun _ => true⟩).g ⟨fun _ => true⟩).ret ≠
      status StatusCodes.INVALID_HANDLE_ERROR := by
  decide

/-- C5: every failure path of `open` releases any partially acquired handle
(`closeCalls` lists the handles passed to `CloseHandle` during the call) and
returns the code of the first failing step: acquisition failure gives
`INVALID_HANDLE_ERROR` with nothing to release, a `GetCommState` failure
gives `GET_PROPERTY_ERROR`, a `SetCommState` failure gives
`SET_PROPERTY_ERROR`, and a `SetCommTimeouts` failure gives
`SET_TIMEOUT_ERROR`, each after closing the acquired handle. -/
theorem open_failure_paths (g : Globals) (env : OpenEnv)
    (baudrate dataBits parity stopBits : Int) :
    (env.createFile = INVALID_HANDLE_VALUE →
      («open» g env baudrate dataBits parity stopBits).ret =
        status StatusCodes.INVALID_HANDLE_ERROR ∧
      («open» g env baudrate dataBits parity stopBits).closeCalls = []) ∧
    (env.createFile ≠ INVALID_HANDLE_VALUE → env.getCommState = none →
      («open» g env baudrate dataBits parity stopBits).ret =
        status StatusCodes.GET_PROPERTY_ERROR ∧
      («open» g env baudrate dataBits parity stopBits).closeCalls = [env.createFile]) ∧
    (∀ ds : DCB, env.createFile ≠ INVALID_HANDLE_VALUE → env.getCommState = some ds →
      env.setCommState (dcbWithLine ds baudrate dataBits parity stopBits) = false →
      («open» g env baudrate dataBits parity stopBits).ret =
        status StatusCodes.SET_PROPERTY_ERROR ∧
      («open» g env baudrate dataBits parity stopBits).closeCalls = [env.createFile]) ∧
    (∀ ds : DCB, env.createFile ≠ INVALID_HANDLE_VALUE → env.getCommState = some ds →
      env.setCommState (dcbWithLine ds baudrate dataBits parity stopBits) = true →
      env.setCommTimeouts defaultTimeouts = false →
      («open» g env baudrate dataBits parity stopBits).ret =
        status StatusCodes.SET_TIMEOUT_ERROR ∧
      («open» g env baudrate dataBits parity stopBits).closeCalls = [env.createFile]) := by
  refine ⟨fun h1 => ?_, fun h1 h2 => ?_, fun ds h1 h2 h3 => ?_, fun ds h1 h2 h3 h4 => ?_⟩
  · simp [«open», h1]
  · simp [«open», h1, h2]
  · simp [«open», h1, h2, h3]
  · simp [«open», h1, h2, h3, h4]

/-- C5 (witness): the `GetCommState`-failure path at a concrete input. -/
theorem open_failure_paths_witness :
    (wOpenEnvFail.createFile ≠ INVALID_HANDLE_VALUE ∧
     wOpenEnvFail.getCommState = none) ∧
    ((«open» initGlobals wOpenEnvFail 9600 8 0 0).ret =
       status StatusCodes.GET_PROPERTY_ERROR ∧
     («open» initGlobals wOpenEnvFail 9600 8 0 0).closeCalls = [wOpenEnvFail.createFile]) :=
  ⟨⟨by decide, rfl⟩,
   (open_failure_paths initGlobals wOpenEnvFail 9600 8 0 0).2.1 (by decide) rfl⟩

/-- C6: on the all-success path with in-range arguments, `open` stores the
acquired handle, takes the fetched driver line state and overwrites exactly
the baud rate, data bits, parity and stop bits with the requested argument
values (every other driver field, `ds.other`, is preserved), commits that
state (the hypothesis `h3` names exactly the committed record), installs the
default timeout profile `⟨50, 50, 10, 50, 10⟩`, closes nothing, and returns
`SUCCESS`, which is `0`. -/
theorem open_success (g : Globals) (env : OpenEnv)
    (baudrate dataBits parity stopBits : Int) (ds : DCB)
    (h1 : env.createFile ≠ INVALID_HANDLE_VALUE)
    (h2 : env.getCommState = some ds)
    (h3 : env.setCommState { ds with BaudRate := baudrate, ByteSize := dataBits,
                                     Parity := parity, StopBits := stopBits } = true)
    (h4 : env.setCommTimeouts defaultTimeouts = true)
    (hb0 : 0 ≤ baudrate) (hb1 : baudrate < 2 ^ 32)
    (hd0 : 0 ≤ dataBits) (hd1 : dataBits < 256)
    (hp0 : 0 ≤ parity) (hp1 : parity < 256)
    (hs0 : 0 ≤ stopBits) (hs1 : stopBits < 256) :
    «open» g env baudrate dataBits parity stopBits =
      ⟨status StatusCodes.SUCCESS,
       { g with hSerialPort := env.createFile,
                dcbSerialParams := { ds with BaudRate := baudrate, ByteSize := dataBits,
                                             Parity := parity, StopBits := stopBits },
                timeouts := defaultTimeouts },
       []⟩ ∧
    status StatusCodes.SUCCESS = 0 := by
  have e : dcbWithLine ds baudrate dataBits parity stopBits =
      { ds with BaudRate := baudrate, ByteSize := dataBits,
                Parity := parity, StopBits := stopBits } := by
    simp only [dcbWithLine]
    rw [Int.emod_eq_of_lt hb0 (by norm_num at hb1 ⊢; omega),
      Int.emod_eq_of_lt hd0 hd1, Int.emod_eq_of_lt hp0 hp1, Int.emod_eq_of_lt hs0 hs1]
  refine ⟨?_, rfl⟩
  simp [«open», h1, h2, e, h3, h4]

/-- C6 (witness): the success path at a concrete input. -/
theorem open_success_witness :
    (wOpenEnvOk.createFile ≠ INVALID_HANDLE_VALUE ∧
     wOpenEnvOk.getCommState = some ⟨9, 9, 9, 9, 9⟩ ∧
     wOpenEnvOk.setCommState ⟨9600, 8, 0, 0, 9⟩ = true ∧
     wOpenEnvOk.setCommTimeouts defaultTimeouts = true) ∧
    («open» initGlobals wOpenEnvOk 9600 8 0 0 =
      ⟨status StatusCodes.SUCCESS,
       { initGlobals with hSerialPort := 7,
                          dcbSerialParams := ⟨9600, 8, 0, 0, 9⟩,
                          timeouts := defaultTimeouts },
       []⟩ ∧
     status StatusCodes.SUCCESS = 0) := by
  refine ⟨⟨by decide, rfl, rfl, rfl⟩, ?_⟩
  have h := open_success initGlobals wOpenEnvOk 9600 8 0 0 ⟨9, 9, 9, 9, 9⟩
    (by decide) rfl rfl rfl (by decide) (by decide) (by decide) (by decide)
    (by decide) (by decide) (by decide) (by decide)
  exact h

/-- C7: on an opened session with in-range arguments, `read` overwrites the
read-timeout fields with exactly the arguments (`interval = constant =
timeout`, `multiplier = multiplier`) in every outcome; if the commit fails it
returns `SET_TIMEOUT_ERROR` touching nothing else; if the single driver read
fails it returns `READ_ERROR`; and if the driver delivers `bytes` with
`bytes.length ≤ bufferSize` it returns exactly that count, which is
non-negative and at most `bufferSize`, with the bytes copied into the
caller's buffer. -/
theorem read_characterization (g : Globals) (env : ReadEnv) (buffer : List Nat)
    (bufferSize timeout multiplier : Int)
    (hopen : g.hSerialPort ≠ INVALID_HANDLE_VALUE)
    (ht0 : 0 ≤ timeout) (ht1 : timeout < 2 ^ 32)
    (hm0 : 0 ≤ multiplier) (hm1 : multiplier < 2 ^ 32) :
    readTimeoutsWith g.timeouts timeout multiplier =
      { g.timeouts with ReadIntervalTimeout := timeout,
                        ReadTotalTimeoutConstant := timeout,
                        ReadTotalTimeoutMultiplier := multiplier } ∧
    (read g env buffer bufferSize timeout multiplier).g.timeouts =
      readTimeoutsWith g.timeouts timeout multiplier ∧
    (env.setCommTimeouts (readTimeoutsWith g.timeouts timeout multiplier) = false →
      read g env buffer bufferSize timeout multiplier =
        ⟨status StatusCodes.SET_TIMEOUT_ERROR,
         { g with timeouts := readTimeoutsWith g.timeouts timeout multiplier }, buffer⟩) ∧
    (env.setCommTimeouts (readTimeoutsWith g.timeouts timeout multiplier) = true →
      env.readFile bufferSize = none →
      read g env buffer bufferSize timeout multiplier =
        ⟨status StatusCodes.READ_ERROR,
         { g with timeouts := readTimeoutsWith g.timeouts timeout multiplier }, buffer⟩) ∧
    (∀ bytes : List Nat,
      env.setCommTimeouts (readTimeoutsWith g.timeouts timeout multiplier) = true →
      env.readFile bufferSize = some bytes →
      (bytes.length : Int) ≤ bufferSize →
      (read g env buffer bufferSize timeout multiplier).ret = (bytes.length : Int) ∧
      0 ≤ (read g env buffer bufferSize timeout multiplier).ret ∧
      (read g env buffer bufferSize timeout multiplier).ret ≤ bufferSize ∧
      (read g env buffer bufferSize timeout multiplier).buffer = writeBytes buffer bytes) := by
  refine ⟨?_, ?_, fun hc => ?_, fun hc hr => ?_, fun bytes hc hr hlen => ?_⟩
  · simp only [readTimeoutsWith]
    rw [Int.emod_eq_of_lt ht0 ht1, Int.emod_eq_of_lt hm0 hm1]
  · cases hc : env.setCommTimeouts (readTimeoutsWith g.timeouts timeout multiplier) with
    | false => simp [read, hopen, hc]
    | true =>
      cases hr : env.readFile bufferSize with
      | none => simp [read, hopen, hc, hr]
      | some bytes => simp [read, hopen, hc, hr]
  · simp [read, hopen, hc]
  · simp [read, hopen, hc, hr]
  · refine ⟨?_, ?_, ?_, ?_⟩ <;> first
      | · simp [read, hopen, hc, hr]
      | · simp [read, hopen, hc, hr]; omega

/-- C7 (witness): a successful two-byte read at a concrete input. -/
theorem read_characterization_witness :
    (wOpened.hSerialPort ≠ INVALID_HANDLE_VALUE ∧
     (0 : Int) ≤ 5 ∧ (5 : Int) < 2 ^ 32 ∧ (0 : Int) ≤ 2 ∧ (2 : Int) < 2 ^ 32 ∧
     wEnvR.setCommTimeouts (readTimeoutsWith wOpened.timeouts 5 2) = true ∧
     wEnvR.readFile 4 = some [65, 66] ∧ (([65, 66] : List Nat).length : Int) ≤ 4) ∧
    ((read wOpened wEnvR [9, 9, 9, 9] 4 5 2).ret = (([65, 66] : List Nat).length : Int) ∧
     0 ≤ (read wOpened wEnvR [9, 9, 9, 9] 4 5 2).ret ∧
     (read wOpened wEnvR [9, 9, 9, 9] 4 5 2).ret ≤ 4 ∧
     (read wOpened wEnvR [9, 9, 9, 9] 4 5 2).buffer = writeBytes [9, 9, 9, 9] [65, 66]) := by
  refine ⟨⟨by decide, by decide, by decide, by decide, by decide, rfl, rfl, by decide⟩, ?_⟩
  exact (read_characterization wOpened wEnvR [9, 9, 9, 9] 4 5 2 (by decide)
    (by decide) (by decide) (by decide) (by decide)).2.2.2.2 [65, 66] rfl rfl (by decide)

/-- C8: `write` overwrites the write-timeout fields with exactly the
arguments in every outcome; if the commit fails it returns
`SET_TIMEOUT_ERROR`; if the single driver write (of the first `bufferSize`
bytes of the caller's buffer) fails it returns `WRITE_ERROR`; and if the
driver reports `n ≤ bufferSize` bytes written it returns exactly `n`. -/
theorem write_characterization (g : Globals) (env : WriteEnv) (buffer : List Nat)
    (bufferSize timeout multiplier : Int)
    (ht0 : 0 ≤ timeout) (ht1 : timeout < 2 ^ 32)
    (hm0 : 0 ≤ multiplier) (hm1 : multiplier < 2 ^ 32) :
    writeTimeoutsWith g.timeouts timeout multiplier =
      { g.timeouts with WriteTotalTimeoutConstant := timeout,
                        WriteTotalTimeoutMultiplier := multiplier } ∧
    (write g env buffer bufferSize timeout multiplier).2.timeouts =
      writeTimeoutsWith g.timeouts timeout multiplier ∧
    (env.setCommTimeouts (writeTimeoutsWith g.timeouts timeout multiplier) = false →
      (write g env buffer bufferSize timeout multiplier).1 =
        status StatusCodes.SET_TIMEOUT_ERROR) ∧
    (env.setCommTimeouts (writeTimeoutsWith g.timeouts timeout multiplier) = true →
      env.writeFile (buffer.take bufferSize.toNat) = none →
      (write g env buffer bufferSize timeout multiplier).1 =
        status StatusCodes.WRITE_ERROR) ∧
    (∀ n : Nat,
      env.setCommTimeouts (writeTimeoutsWith g.timeouts timeout multiplier) = true →
      env.writeFile (buffer.take bufferSize.toNat) = some n →
      (n : Int) ≤ bufferSize →
      (write g env buffer bufferSize timeout multiplier).1 = (n : Int) ∧
      0 ≤ (write g env buffer bufferSize timeout multiplier).1 ∧
      (write g env buffer bufferSize timeout multiplier).1 ≤ bufferSize) := by
  refine ⟨?_, ?_, fun hc => ?_, fun hc hw => ?_, fun n hc hw hlen => ?_⟩
  · simp only [writeTimeoutsWith]
    rw [Int.emod_eq_of_lt ht0 ht1, Int.emod_eq_of_lt hm0 hm1]
  · cases hc : env.setCommTimeouts (writeTimeoutsWith g.timeouts timeout multiplier) with
    | false => simp [write, hc]
    | true =>
      cases hw : env.writeFile (buffer.take bufferSize.toNat) with
      | none => simp [write, hc, hw]
      | some n => simp [write, hc, hw]
  · simp [write, hc]
  · simp [write, hc, hw]
  · refine ⟨?_, ?_, ?_⟩ <;> first
      | · simp [write, hc, hw]
      | · simp [write, hc, hw]; omega

/-- C8 (witness): a successful two-byte write at a concrete input. -/
theorem write_characterization_witness :
    ((0 : Int) ≤ 5 ∧ (5 : Int) < 2 ^ 32 ∧ (0 : Int) ≤ 2 ∧ (2 : Int) < 2 ^ 32 ∧
     wEnvW.setCommTimeouts (writeTimeoutsWith initGlobals.timeouts 5 2) = true ∧
     wEnvW.writeFile (([1, 2, 3] : List Nat).take (Int.toNat 3)) = some 2 ∧
     ((2 : Nat) : Int) ≤ 3) ∧
    ((write initGlobals wEnvW [1, 2, 3] 3 5 2).1 = ((2 : Nat) : Int) ∧
     0 ≤ (write initGlobals wEnvW [1, 2, 3] 3 5 2).1 ∧
     (write initGlobals wEnvW [1, 2, 3] 3 5 2).1 ≤ 3) := by
  refine ⟨⟨by decide, by decide, by decide, by decide, rfl, rfl, by decide⟩, ?_⟩
  exact (write_characterization initGlobals wEnvW [1, 2, 3] 3 5 2 (by decide)
    (by decide) (by decide) (by decide)).2.2.2.2 2 rfl rfl (by decide)

/-- C10: whenever `readUntil` returns a negative status, the caller's buffer
is completely unchanged: the `memcpy` happens only on the non-negative
return path. -/
theorem readUntil_error_frame (g : Globals) (env : ReadUntilEnv) (buffer : List Nat)
    (bufferSize timeout multiplier : Int) (search : List Nat)
    (hneg : (readUntil g env buffer bufferSize timeout multiplier search).ret < 0) :
    (readUntil g env buffer bufferSize timeout multiplier search).buffer = buffer := by
  by_cases h1 : g.hSerialPort = INVALID_HANDLE_VALUE
  · simp [readUntil, h1]
  · cases hc : env.setCommTimeouts (readTimeoutsWith g.timeouts timeout multiplier) with
    | false => simp [readUntil, h1, hc]
    | true =>
      cases hloop : readUntilLoop env.readOne search [] 0 bufferSize.toNat with
      | error acc => simp [readUntil, h1, hc, hloop]
      | ok acc =>
        exfalso
        have hret : (readUntil g env buffer bufferSize timeout multiplier search).ret =
            (acc.length : Int) := by
          simp [readUntil, h1, hc, hloop]
        omega

/-- C10 (witness): a driver-failure call leaves the concrete buffer
untouched. -/
theorem readUntil_error_frame_witness :
    (readUntil wOpened wEnvUFail [9, 9] 2 5 5 [59]).ret < 0 ∧
    (readUntil wOpened wEnvUFail [9, 9] 2 5 5 [59]).buffer = [9, 9] :=
  ⟨by decide, readUntil_error_frame wOpened wEnvUFail [9, 9] 2 5 5 [59] (by decide)⟩

/-- Full characterization of a normal exit of the `readUntil` loop.  The
accumulated suffix `tail` was delivered byte by byte by the driver in order,
the delimiter test failed on the whole accumulator before each read (so the
loop stopped at the first match, if any), and the exit was a match, a
zero-byte read (with fuel left), or fuel exhaustion. -/
theorem readUntilLoop_ok_char (readOne : Nat → ReadOne) (search : List Nat) :
    ∀ (fuel i : Nat) (data out : List Nat),
      readUntilLoop readOne search data i fuel = Except.ok out →
      ∃ tail : List Nat,
        out = data ++ tail ∧
        tail.length ≤ fuel ∧
        (∀ j, j < tail.length → readOne (i + j) = ReadOne.byte (tail.getD j 0)) ∧
        (∀ j, j < tail.length → hasSubstr (data ++ tail.take j) search = false) ∧
        (hasSubstr out search = true ∨
          (readOne (i + tail.length) = ReadOne.empty ∧ tail.length < fuel) ∨
          tail.length = fuel) := by
  intro fuel
  induction fuel with
  | zero =>
    intro i data out h
    have hd : data = out := by simpa [readUntilLoop] using h
    subst hd
    refine ⟨[], by simp, by simp, ?_, ?_, Or.inr (Or.inr rfl)⟩
    · intro j hj; simp at hj
    · intro j hj; simp at hj
  | succ fuel ih =>
    intro i data out h
    by_cases hf : hasSubstr data search = true
    · have hd : data = out := by simpa [readUntilLoop, hf] using h
      subst hd
      refine ⟨[], by simp, by simp, ?_, ?_, Or.inl (by simpa using hf)⟩
      · intro j hj; simp at hj
      · intro j hj; simp at hj
    · have hf' : hasSubstr data search = false := by simpa using hf
      cases hr : readOne i with
      | fail => simp [readUntilLoop, hf', hr] at h
      | empty =>
        have hd : data = out := by simpa [readUntilLoop, hf', hr] using h
        subst hd
        refine ⟨[], by simp, by simp, ?_, ?_,
          Or.inr (Or.inl ⟨by simpa using hr, by simp⟩)⟩
        · intro j hj; simp at hj
        · intro j hj; simp at hj
      | byte b =>
        have h' : readUntilLoop readOne search (data ++ [b]) (i + 1) fuel =
            Except.ok out := by
          simpa [readUntilLoop, hf', hr] using h
        obtain ⟨tail, ho, hlen, hreads, hnm, hexit⟩ := ih (i + 1) (data ++ [b]) out h'
        refine ⟨b :: tail, ?_, ?_, ?_, ?_, ?_⟩
        · simpa [List.append_assoc] using ho
        · simpa using Nat.succ_le_succ hlen
        · intro j hj
          cases j with
          | zero => simpa using hr
          | succ k =>
            have hk : k < tail.length := by simpa using hj
            have hik : i + (k + 1) = (i + 1) + k := by omega
            rw [hik]
            simpa using hreads k hk
        · intro j hj
          cases j with
          | zero => simpa using hf'
          | succ k =>
            have hk : k < tail.length := by simpa using hj
            have := hnm k hk
            simpa [List.append_assoc] using this
        · rcases hexit with hfound | ⟨hemp, hlt⟩ | hfull
          · exact Or.inl hfound
          · refine Or.inr (Or.inl ⟨?_, ?_⟩)
            · have hik : i + (b :: tail).length = (i + 1) + tail.length := by
                simp; omega
              rw [hik]; exact hemp
            · simpa using Nat.succ_lt_succ hlt
          · exact Or.inr (Or.inr (by simp [hfull]))

/-- Full characterization of the error exit of the `readUntil` loop: the
driver failed on the read right after delivering `tail`, with fuel left and
no match on any prefix of the accumulator (including the whole of it). -/
theorem readUntilLoop_error_char (readOne : Nat → ReadOne) (search : List Nat) :
    ∀ (fuel i : Nat) (data out : List Nat),
      readUntilLoop readOne search data i fuel = Except.error out →
      ∃ tail : List Nat,
        out = data ++ tail ∧
        tail.length < fuel ∧
        (∀ j, j < tail.length → readOne (i + j) = ReadOne.byte (tail.getD j 0)) ∧
        (∀ j, j ≤ tail.length → hasSubstr (data ++ tail.take j) search = false) ∧
        readOne (i + tail.length) = ReadOne.fail := by
  intro fuel
  induction fuel with
  | zero => intro i data out h; simp [readUntilLoop] at h
  | succ fuel ih =>
    intro i data out h
    by_cases hf : hasSubstr data search = true
    · simp [readUntilLoop, hf] at h
    · have hf' : hasSubstr data search = false := by simpa using hf
      cases hr : readOne i with
      | fail =>
        have hd : data = out := by simpa [readUntilLoop, hf', hr] using h
        subst hd
        refine ⟨[], by simp, by simp, ?_, ?_, by simpa using hr⟩
        · intro j hj; simp at hj
        · intro j hj
          have hj0 : j = 0 := by simpa using hj
          subst hj0
          simpa using hf'
      | empty => simp [readUntilLoop, hf', hr] at h
      | byte b =>
        have h' : readUntilLoop readOne search (data ++ [b]) (i + 1) fuel =
            Except.error out := by
          simpa [readUntilLoop, hf', hr] using h
        obtain ⟨tail, ho, hlen, hreads, hnm, hfail⟩ := ih (i + 1) (data ++ [b]) out h'
        refine ⟨b :: tail, ?_, ?_, ?_, ?_, ?_⟩
        · simpa [List.append_assoc] using ho
        · simpa using Nat.succ_lt_succ hlen
        · intro j hj
          cases j with
          | zero => simpa using hr
          | succ k =>
            have hk : k < tail.length := by simpa using hj
            have hik : i + (k + 1) = (i + 1) + k := by omega
            rw [hik]
            simpa using hreads k hk
        · intro j hj
          cases j with
          | zero => simpa using hf'
          | succ k =>
            have hk : k ≤ tail.length := by simpa using hj
            have := hnm k hk
            simpa [List.append_assoc] using this
        · have hik : i + (b :: tail).length = (i + 1) + tail.length := by
            simp; omega
          rw [hik]; exact hfail

/-- C2: on an opened session whose timeout commit succeeds, `readUntil`
either hits a driver read failure and returns `READ_ERROR` without touching
the caller's buffer (the global accumulator holds the bytes delivered so far,
fewer than `bufferSize`, none of whose prefixes contained the delimiter), or
exits normally with some accumulator `acc` of at most `bufferSize` bytes:
the bytes were delivered in order by single-byte reads, before each read the
whole accumulator so far was scanned for the delimiter without a match (so a
straddling delimiter is found as soon as it is complete and the loop stops at
the first match), the exit was a match on the whole accumulator, a zero-byte
read, or the iteration bound, and the accumulator followed by one terminating
zero byte is copied into the caller's buffer with the accumulator length
returned. -/
theorem readUntil_characterization (g : Globals) (env : ReadUntilEnv)
    (buffer : List Nat) (bufferSize timeout multiplier : Int) (search : List Nat)
    (hopen : g.hSerialPort ≠ INVALID_HANDLE_VALUE)
    (hcommit : env.setCommTimeouts (readTimeoutsWith g.timeouts timeout multiplier) = true) :
    (∃ acc : List Nat,
      (readUntil g env buffer bufferSize timeout multiplier search).ret =
        status StatusCodes.READ_ERROR ∧
      (readUntil g env buffer bufferSize timeout multiplier search).buffer = buffer ∧
      (readUntil g env buffer bufferSize timeout multiplier search).g.data = acc ∧
      acc.length < bufferSize.toNat ∧
      (∀ j, j < acc.length → env.readOne j = ReadOne.byte (acc.getD j 0)) ∧
      (∀ j, j ≤ acc.length → hasSubstr (acc.take j) search = false) ∧
      env.readOne acc.length = ReadOne.fail) ∨
    (∃ acc : List Nat,
      (readUntil g env buffer bufferSize timeout multiplier search).ret =
        (acc.length : Int) ∧
      (readUntil g env buffer bufferSize timeout multiplier search).buffer =
        writeBytes buffer (acc ++ [0]) ∧
      (readUntil g env buffer bufferSize timeout multiplier search).g.data = acc ∧
      acc.length ≤ bufferSize.toNat ∧
      (∀ j, j < acc.length → env.readOne j = ReadOne.byte (acc.getD j 0)) ∧
      (∀ j, j < acc.length → hasSubstr (acc.take j) search = false) ∧
      (hasSubstr acc search = true ∨
        (env.readOne acc.length = ReadOne.empty ∧ acc.length < bufferSize.toNat) ∨
        acc.length = bufferSize.toNat)) := by
  cases hloop : readUntilLoop env.readOne search [] 0 bufferSize.toNat with
  | error acc =>
    left
    obtain ⟨tail, ho, hlen, hreads, hnm, hfail⟩ :=
      readUntilLoop_error_char env.readOne search bufferSize.toNat 0 [] acc hloop
    have ht : acc = tail := by simpa using ho
    subst ht
    refine ⟨acc, ?_, ?_, ?_, hlen, ?_, ?_, by simpa using hfail⟩
    · simp [readUntil, hopen, hcommit, hloop]
    · simp [readUntil, hopen, hcommit, hloop]
    · simp [readUntil, hopen, hcommit, hloop]
    · intro j hj; simpa using hreads j hj
    · intro j hj; simpa using hnm j hj
  | ok acc =>
    right
    obtain ⟨tail, ho, hlen, hreads, hnm, hexit⟩ :=
      readUntilLoop_ok_char env.readOne search bufferSize.toNat 0 [] acc hloop
    have ht : acc = tail := by simpa using ho
    subst ht
    refine ⟨acc, ?_, ?_, ?_, hlen, ?_, ?_, ?_⟩
    · simp [readUntil, hopen, hcommit, hloop]
    · simp [readUntil, hopen, hcommit, hloop]
    · simp [readUntil, hopen, hcommit, hloop]
    · intro j hj; simpa using hreads j hj
    · intro j hj; simpa using hnm j hj
    · rcases hexit with hfound | ⟨hemp, hlt⟩ | hfull
      · exact Or.inl hfound
      · exact Or.inr (Or.inl ⟨by simpa using hemp, hlt⟩)
      · exact Or.inr (Or.inr hfull)

/-- C2 (witness): the delimiter `;` arrives as the third byte of the
concrete stream, so the call returns `3` and writes `A`, `B`, `;`, `0`. -/
theorem readUntil_characterization_witness :
    (wOpened.hSerialPort ≠ INVALID_HANDLE_VALUE ∧
     wEnvU.setCommTimeouts (readTimeoutsWith wOpened.timeouts 5 5) = true) ∧
    ((∃ acc : List Nat,
      (readUntil wOpened wEnvU [9, 9, 9, 9, 9, 9] 6 5 5 [59]).ret =
        status StatusCodes.READ_ERROR ∧
      (readUntil wOpened wEnvU [9, 9, 9, 9, 9, 9] 6 5 5 [59]).buffer = [9, 9, 9, 9, 9, 9] ∧
      (readUntil wOpened wEnvU [9, 9, 9, 9, 9, 9] 6 5 5 [59]).g.data = acc ∧
      acc.length < Int.toNat 6 ∧
      (∀ j, j < acc.length → wEnvU.readOne j = ReadOne.byte (acc.getD j 0)) ∧
      (∀ j, j ≤ acc.length → hasSubstr (acc.take j) [59] = false) ∧
      wEnvU.readOne acc.length = ReadOne.fail) ∨
    (∃ acc : List Nat,
      (readUntil wOpened wEnvU [9, 9, 9, 9, 9, 9] 6 5 5 [59]).ret = (acc.length : Int) ∧
      (readUntil wOpened wEnvU [9, 9, 9, 9, 9, 9] 6 5 5 [59]).buffer =
        writeBytes [9, 9, 9, 9, 9, 9] (acc ++ [0]) ∧
      (readUntil wOpened wEnvU [9, 9, 9, 9, 9, 9] 6 5 5 [59]).g.data = acc ∧
      acc.length ≤ Int.toNat 6 ∧
      (∀ j, j < acc.length → wEnvU.readOne j = ReadOne.byte (acc.getD j 0)) ∧
      (∀ j, j < acc.length → hasSubstr (acc.take j) [59] = false) ∧
      (hasSubstr acc [59] = true ∨
        (wEnvU.readOne acc.length = ReadOne.empty ∧ acc.length < Int.toNat 6) ∨
        acc.length = Int.toNat 6))) :=
  ⟨⟨by decide, rfl⟩,
   readUntil_characterization wOpened wEnvU [9, 9, 9, 9, 9, 9] 6 5 5 [59] (by decide) rfl⟩

/-- C3: whenever `bufferSize ≥ 0` and `readUntil` returns a non-negative
value, the caller's buffer received some payload of at most `bufferSize`
bytes followed by exactly one terminating zero byte (all further cells are
unchanged), and the returned value equals the payload length. -/
theorem readUntil_buffer_bound (g : Globals) (env : ReadUntilEnv) (buffer : List Nat)
    (bufferSize timeout multiplier : Int) (search : List Nat)
    (hbs : 0 ≤ bufferSize)
    (hret : 0 ≤ (readUntil g env buffer bufferSize timeout multiplier search).ret) :
    ∃ payload : List Nat,
      (readUntil g env buffer bufferSize timeout multiplier search).ret =
        (payload.length : Int) ∧
      (payload.length : Int) ≤ bufferSize ∧
      (readUntil g env buffer bufferSize timeout multiplier search).buffer =
        payload ++ [0] ++ buffer.drop (payload.length + 1) := by
  by_cases h1 : g.hSerialPort = INVALID_HANDLE_VALUE
  · exfalso
    have h := hret
    simp [readUntil, h1, status] at h
  · cases hc : env.setCommTimeouts (readTimeoutsWith g.timeouts timeout multiplier) with
    | false =>
      exfalso
      have h := hret
      simp [readUntil, h1, hc, status] at h
    | true =>
      cases hloop : readUntilLoop env.readOne search [] 0 bufferSize.toNat with
      | error acc =>
        exfalso
        have h := hret
        simp [readUntil, h1, hc, hloop, status] at h
      | ok acc =>
        obtain ⟨tail, ho, hlen, -, -, -⟩ :=
          readUntilLoop_ok_char env.readOne search bufferSize.toNat 0 [] acc hloop
        have ht : acc = tail := by simpa using ho
        refine ⟨acc, ?_, ?_, ?_⟩
        · simp [readUntil, h1, hc, hloop]
        · subst ht; omega
        · simp [readUntil, h1, hc, hloop, writeBytes, List.append_assoc]

/-- C3 (witness): the concrete stream of C2's witness under `bufferSize = 6`
returns `3` and the buffer holds the three bytes, the terminator, and the
untouched tail. -/
theorem readUntil_buffer_bound_witness :
    ((0 : Int) ≤ 6 ∧ 0 ≤ (readUntil wOpened wEnvU [9, 9, 9, 9, 9, 9] 6 5 5 [59]).ret) ∧
    (∃ payload : List Nat,
      (readUntil wOpened wEnvU [9, 9, 9, 9, 9, 9] 6 5 5 [59]).ret =
        (payload.length : Int) ∧
      (payload.length : Int) ≤ 6 ∧
      (readUntil wOpened wEnvU [9, 9, 9, 9, 9, 9] 6 5 5 [59]).buffer =
        payload ++ [0] ++ ([9, 9, 9, 9, 9, 9] : List Nat).drop (payload.length + 1)) :=
  ⟨⟨by decide, by decide⟩,
   readUntil_buffer_bound wOpened wEnvU [9, 9, 9, 9, 9, 9] 6 5 5 [59] (by decide) (by decide)⟩

set_option maxRecDepth 40000 in
/-- C4 (counterexample): with exactly `COM1` and `COM2` openable and the
two-byte separator `";;"`, the produced buffer differs from the claimed
"names joined with the separator and no trailing separator" followed by a
zero byte — `result.erase(result.length() - 1)` removes only one character,
so one byte of the trailing separator remains.  Moreover with
`bufferSize = -1` the joined length plus one exceeds `bufferSize`, yet the
call does not return `BUFFER_ERROR` and does write into the buffer, because
the capacity test compares against `bufferSize` converted to `size_t`. -/
theorem getAvailablePorts_counterexample :
    (getAvailablePorts probeTwo (List.replicate 16 9) 64 [59, 59]).2 ≠
      writeBytes (List.replicate 16 9)
        (joinWithSep ((portsUpTo probeTwo 256).map portName) [59, 59] ++ [0]) ∧
    (((joinWithSep ((portsUpTo probeNone 256).map portName) [44]).length : Int) + 1 >
        (-1 : Int) ∧
     (getAvailablePorts probeNone [9, 9] (-1) [44]).1 ≠
       status StatusCodes.BUFFER_ERROR ∧
     (getAvailablePorts probeNone [9, 9] (-1) [44]).2 ≠ [9, 9]) := by
  decide

/-- Every ASCII digit produced by the rendering helper lies in `48 .. 57`. -/
theorem toDecimalDigitsAux_mem :
    ∀ fuel n, ∀ d ∈ toDecimalDigitsAux fuel n, 48 ≤ d ∧ d ≤ 57 := by
  intro fuel
  induction fuel with
  | zero => intro n d hd; simp [toDecimalDigitsAux] at hd
  | succ fuel ih =>
    intro n d hd
    by_cases h : n < 10
    · simp [toDecimalDigitsAux, h] at hd
      omega
    · simp [toDecimalDigitsAux, h] at hd
      rcases hd with hd | hd
      · exact ih (n / 10) d hd
      · omega

/-- Every ASCII digit produced by `toDecimalDigits` lies in `48 .. 57`. -/
theorem toDecimalDigits_mem (n : Nat) : ∀ d ∈ toDecimalDigits n, 48 ≤ d ∧ d ≤ 57 :=
  toDecimalDigitsAux_mem (n + 1) n

/-- A port name is never the empty string. -/
theorem portName_ne_nil (i : Nat) : portName i ≠ [] := by
  simp [portName]

/-- A byte that is none of `C`, `O`, `M` and no ASCII digit occurs in no
port name. -/
theorem not_mem_portName (c : Nat)
    (hc : c ≠ 67 ∧ c ≠ 79 ∧ c ≠ 77 ∧ ¬(48 ≤ c ∧ c ≤ 57)) (i : Nat) :
    c ∉ portName i := by
  intro h
  simp [portName] at h
  rcases h with h | h | h | h
  · exact hc.1 h
  · exact hc.2.1 h
  · exact hc.2.2.1 h
  · exact hc.2.2.2 (toDecimalDigits_mem i c h)

/-- Concatenation distributes over `joinAllSep`. -/
theorem joinAllSep_append (sep : List Nat) (a b : List (List Nat)) :
    joinAllSep sep (a ++ b) = joinAllSep sep a ++ joinAllSep sep b := by
  induction a with
  | nil => simp [joinAllSep]
  | cons x xs ih => simp [joinAllSep, ih]

/-- The probe loop after `n` candidates has accumulated every successful
name followed by the full separator, and counted the successes. -/
theorem enumLoop_join (probe : Nat → Bool) (sep : List Nat) (n : Nat) :
    enumLoop probe sep n =
      (joinAllSep sep ((portsUpTo probe n).map portName),
       (portsUpTo probe n).length) := by
  induction n with
  | zero => rfl
  | succ n ih =>
    by_cases h : probe (n + 1) = true
    · simp [enumLoop, portsUpTo, h, ih, joinAllSep_append, joinAllSep]
    · simp [enumLoop, portsUpTo, h, ih]

/-- Removing the last element of a concatenation whose right part is
nonempty removes it from the right part. -/
theorem dropLast_append_ne (xs : List Nat) :
    ∀ ys : List Nat, ys ≠ [] → (xs ++ ys).dropLast = xs ++ ys.dropLast := by
  induction xs with
  | nil => intro ys _; simp
  | cons x xs ih =>
    intro ys hys
    cases hxy : xs ++ ys with
    | nil => exact absurd (List.append_eq_nil.mp hxy).2 hys
    | cons a l =>
      simp only [List.cons_append, hxy, List.dropLast_cons₂]
      rw [← hxy, ih ys hys]

/-- `joinAllSep` with a nonempty separator over a nonempty name list is
nonempty. -/
theorem joinAllSep_ne_nil (c : Nat) (names : List (List Nat)) (h : names ≠ []) :
    joinAllSep [c] names ≠ [] := by
  cases names with
  | nil => exact absurd rfl h
  | cons nm rest => simp [joinAllSep]

/-- Dropping the final character of the probe-loop string turns "every name
followed by the separator" into the spec's "separator between adjacent names,
no trailing separator" — for a one-character separator. -/
theorem joinAllSep_dropLast (c : Nat) :
    ∀ names : List (List Nat), names ≠ [] →
      (joinAllSep [c] names).dropLast = joinWithSep names [c] := by
  intro names
  induction names with
  | nil => intro h; exact absurd rfl h
  | cons nm rest ih =>
    intro _
    cases rest with
    | nil =>
      simp [joinAllSep, joinWithSep, dropLast_append_ne]
    | cons r rs =>
      have hJ : joinAllSep [c] (r :: rs) ≠ [] := joinAllSep_ne_nil c _ (by simp)
      have h1 : joinAllSep [c] (nm :: r :: rs) =
          nm ++ ([c] ++ joinAllSep [c] (r :: rs)) := by
        simp [joinAllSep]
      rw [h1, dropLast_append_ne nm _ (by simp),
        dropLast_append_ne [c] _ hJ, ih (by simp)]
      simp [joinWithSep]

/-- `joinWithSep` over nonempty names with a nonempty name list is
nonempty. -/
theorem joinWithSep_ne_nil (c : Nat) :
    ∀ names : List (List Nat), names ≠ [] → (∀ nm ∈ names, nm ≠ []) →
      joinWithSep names [c] ≠ [] := by
  intro names
  cases names with
  | nil => intro h _; exact absurd rfl h
  | cons nm rest =>
    intro _ hne
    cases rest with
    | nil => simpa [joinWithSep] using hne nm (by simp)
    | cons r rs =>
      have : nm ≠ [] := hne nm (by simp)
      simp [joinWithSep, this]

/-- For a one-byte separator occurring in none of the (nonempty) names, the
number of separator-delimited tokens of the joined string equals the number
of names. -/
theorem countTokens_joinWithSep (c : Nat) :
    ∀ names : List (List Nat), (∀ nm ∈ names, nm ≠ []) → (∀ nm ∈ names, c ∉ nm) →
      countTokens (joinWithSep names [c]) c = names.length := by
  intro names
  induction names with
  | nil => intro _ _; simp [joinWithSep, countTokens]
  | cons nm rest ih =>
    intro hne hmem
    cases rest with
    | nil =>
      have h1 : nm ≠ [] := hne nm (by simp)
      have h2 : c ∉ nm := hmem nm (by simp)
      simp [joinWithSep, countTokens, h1, List.count_eq_zero.mpr h2]
    | cons r rs =>
      have hne' : ∀ x ∈ r :: rs, x ≠ [] := fun x hx => hne x (List.mem_cons_of_mem _ hx)
      have hmem' : ∀ x ∈ r :: rs, c ∉ x := fun x hx => hmem x (List.mem_cons_of_mem _ hx)
      have hJne : joinWithSep (r :: rs) [c] ≠ [] :=
        joinWithSep_ne_nil c _ (by simp) hne'
      have hIH := ih hne' hmem'
      have h1 : nm ≠ [] := hne nm (by simp)
      have h2 : c ∉ nm := hmem nm (by simp)
      have hJct : (joinWithSep (r :: rs) [c]).count c = rs.length := by
        simp [countTokens, hJne] at hIH
        omega
      have hshape : joinWithSep (nm :: r :: rs) [c] =
          nm ++ ([c] ++ joinWithSep (r :: rs) [c]) := by
        simp [joinWithSep]
      rw [hshape, countTokens, if_neg (by simp)]
      simp [List.count_append, List.count_eq_zero.mpr h2, hJct]

set_option maxRecDepth 40000 in
set_option maxHeartbeats 1000000 in
/-- C4 (amended): for a one-byte separator that occurs in no candidate port
name, and a non-negative `bufferSize` in `int` range, `getAvailablePorts`
builds exactly the successful names joined with the separator between
adjacent names and no trailing separator; if the joined length plus one
terminating zero byte exceeds `bufferSize` it returns `BUFFER_ERROR` without
writing, and otherwise it copies the joined string with its terminator into
the buffer and returns the number of successfully probed names, which equals
the number of separator-delimited tokens in the buffer. -/
theorem getAvailablePorts_amended (probe : Nat → Bool) (buffer : List Nat)
    (bufferSize : Int) (c : Nat)
    (hc : c ≠ 67 ∧ c ≠ 79 ∧ c ≠ 77 ∧ ¬(48 ≤ c ∧ c ≤ 57))
    (hbs0 : 0 ≤ bufferSize) (hbs1 : bufferSize < 2 ^ 63) :
    (((joinWithSep ((portsUpTo probe 256).map portName) [c]).length : Int) + 1 >
        bufferSize →
      getAvailablePorts probe buffer bufferSize [c] =
        (status StatusCodes.BUFFER_ERROR, buffer)) ∧
    (((joinWithSep ((portsUpTo probe 256).map portName) [c]).length : Int) + 1 ≤
        bufferSize →
      getAvailablePorts probe buffer bufferSize [c] =
        (((portsUpTo probe 256).length : Int),
         writeBytes buffer
           (joinWithSep ((portsUpTo probe 256).map portName) [c] ++ [0])) ∧
      (portsUpTo probe 256).length =
        countTokens (joinWithSep ((portsUpTo probe 256).map portName) [c]) c) := by
  have hmod : bufferSize % (2 : Int) ^ 64 = bufferSize :=
    Int.emod_eq_of_lt hbs0 (by norm_num at hbs1 ⊢; omega)
  have hNE : ∀ nm ∈ (portsUpTo probe 256).map portName, nm ≠ [] := by
    intro nm hm
    simp only [List.mem_map] at hm
    obtain ⟨i, -, rfl⟩ := hm
    exact portName_ne_nil i
  have hMEM : ∀ nm ∈ (portsUpTo probe 256).map portName, c ∉ nm := by
    intro nm hm
    simp only [List.mem_map] at hm
    obtain ⟨i, -, rfl⟩ := hm
    exact not_mem_portName c hc i
  have e1 : (enumLoop probe [c] 256).1 =
      joinAllSep [c] ((portsUpTo probe 256).map portName) := by
    rw [enumLoop_join]
  have e2 : (enumLoop probe [c] 256).2 = (portsUpTo probe 256).length := by
    rw [enumLoop_join]
  have hres :
      (if ((enumLoop probe [c] 256).1).length > 0
       then ((enumLoop probe [c] 256).1).dropLast
       else (enumLoop probe [c] 256).1) =
      joinWithSep ((portsUpTo probe 256).map portName) [c] := by
    cases hn : (portsUpTo probe 256).map portName with
    | nil =>
      rw [e1, hn]
      simp [joinAllSep, joinWithSep]
    | cons a l =>
      have hlen : 0 < (joinAllSep [c] (a :: l)).length :=
        List.length_pos.mpr (joinAllSep_ne_nil c (a :: l) (by simp))
      rw [e1, hn, if_pos hlen, joinAllSep_dropLast c (a :: l) (by simp)]
  have hGA : getAvailablePorts probe buffer bufferSize [c] =
      if ((joinWithSep ((portsUpTo probe 256).map portName) [c]).length : Int) + 1 >
          bufferSize
      then (status StatusCodes.BUFFER_ERROR, buffer)
      else (((portsUpTo probe 256).length : Int),
        writeBytes buffer
          (joinWithSep ((portsUpTo probe 256).map portName) [c] ++ [0])) := by
    simp only [getAvailablePorts]
    rw [hmod, hres, e2]
  constructor
  · intro hover
    rw [hGA]
    split
    · rfl
    · next hcond => exact absurd hover hcond
  · intro hle
    rw [hGA]
    split
    · next hcond => exact absurd hcond (not_lt.mpr hle)
    · refine ⟨rfl, ?_⟩
      rw [← List.length_map (portsUpTo probe 256) portName]
      exact (countTokens_joinWithSep c _ hNE hMEM).symm

set_option maxRecDepth 40000 in
/-- C4 (witness): with `COM1` and `COM2` openable, separator `','` and
`bufferSize = 16`, the amended statement at a concrete input. -/
theorem getAvailablePorts_amended_witness :
    (((44 : Nat) ≠ 67 ∧ (44 : Nat) ≠ 79 ∧ (44 : Nat) ≠ 77 ∧
        ¬(48 ≤ (44 : Nat) ∧ (44 : Nat) ≤ 57)) ∧
     (0 : Int) ≤ 16 ∧ (16 : Int) < 2 ^ 63) ∧
    ((((joinWithSep ((portsUpTo probeTwo 256).map portName) [44]).length : Int) + 1 >
        (16 : Int) →
      getAvailablePorts probeTwo (List.replicate 16 9) 16 [44] =
        (status StatusCodes.BUFFER_ERROR, List.replicate 16 9)) ∧
     (((joinWithSep ((portsUpTo probeTwo 256).map portName) [44]).length : Int) + 1 ≤
        (16 : Int) →
      getAvailablePorts probeTwo (List.replicate 16 9) 16 [44] =
        (((portsUpTo probeTwo 256).length : Int),
         writeBytes (List.replicate 16 9)
           (joinWithSep ((portsUpTo probeTwo 256).map portName) [44] ++ [0])) ∧
      (portsUpTo probeTwo 256).length =
        countTokens (joinWithSep ((portsUpTo probeTwo 256).map portName) [44]) 44)) :=
  ⟨⟨by decide, by decide, by decide⟩,
   getAvailablePorts_amended probeTwo (List.replicate 16 9) 16 44
     (by decide) (by decide) (by decide)⟩

end Serial
